import Mathlib

/-!
Verification of the few-shot behavior-cloning repository.

The development shallowly embeds the two source modules:
* `act/rl_bench/torch_data.py` — min-max normalizer, trajectory chunk
  sampler, filename-derived skill/environment indicators, and the
  train/validation file splitter (`load_data`). Numeric values are
  modelled over `ℚ`.
* `act/policy.py` — the ACT training-mode loss assembly and the
  `kl_divergence` helper. Because the KL term uses `exp`, this part is
  modelled over `ℝ`.

Tensors are modelled as nested lists (batch × time × dim); torch
elementwise operations become `List.zipWith` and reductions become list
sums and means.
-/

namespace FewShotBC

namespace TorchData

/-- Joint-space dimensionality, `CONFIG_DIM = 7` in `torch_data.py`. -/
def CONFIG_DIM : ℕ := 7

/-- `ConfigMinMaxNormalization`: per-dimension bounds. `bounds[:, 0]` is
the column of minima, `bounds[:, 1]` the column of maxima. -/
structure ConfigMinMaxNormalization where
  bmin : List ℚ
  bmax : List ℚ

/-- `validate_bounds(js)`: `np.all(js > min) and np.all(js < max)`,
i.e. every dimension strictly inside the open interval. -/
def validate_bounds (n : ConfigMinMaxNormalization) (js : List ℚ) : Bool :=
  (List.zipWith (fun x m => decide (m < x)) js n.bmin).all id &&
  (List.zipWith (fun x m => decide (x < m)) js n.bmax).all id

/-- `transform(X)`: `X = (X - min) / (max - min); X = X * 2 - 1`. -/
def transform (n : ConfigMinMaxNormalization) (X : List ℚ) : List ℚ :=
  List.zipWith (fun x (p : ℚ × ℚ) => (x - p.1) / (p.2 - p.1) * 2 - 1)
    X (List.zip n.bmin n.bmax)

/-- `inverse_transform(X)`: `X = (X + 1) / 2; X = X * (max - min) + min`. -/
def inverse_transform (n : ConfigMinMaxNormalization) (X : List ℚ) : List ℚ :=
  List.zipWith (fun x (p : ℚ × ℚ) => (x + 1) / 2 * (p.2 - p.1) + p.1)
    X (List.zip n.bmin n.bmax)

/-- `clamp(js)`: elementwise `np.minimum(np.maximum(js, min), max)`. -/
def clamp (n : ConfigMinMaxNormalization) (js : List ℚ) : List ℚ :=
  List.zipWith (fun x (p : ℚ × ℚ) => min (max x p.1) p.2)
    js (List.zip n.bmin n.bmax)

/-- One timestep of the chunk-normalization loop in
`ReverseTrajDataset.__getitem__`:

    if self.normalizer.validate_bounds(js):
        chunk_data[i] = self.normalizer.transform(js)
    chunk_data[i] = self.normalizer.clamp(js)

Both assignments write the same slot; the second uses the loop variable
`js` (the original element), so it overwrites the first unconditionally. -/
def processTimestep (n : ConfigMinMaxNormalization) (js : List ℚ) : List ℚ :=
  let _step1 := if validate_bounds n js then transform n js else js
  let step2 := clamp n js
  step2

/-- Python slice `demo[start_ts:end_ts]` (with `start_ts ≤ end_ts`). -/
def sliceChunk {α : Type} (demo : List α) (start_ts end_ts : ℕ) : List α :=
  (demo.drop start_ts).take (end_ts - start_ts)

/-- The pad-mask construction of `__getitem__`:
`is_pad = np.ones(chunk_size); is_pad[:valid] = 0`, read as booleans
(`True` = padded). Element `i` is padded iff `valid ≤ i`. -/
def mkIsPad (chunk_size valid : ℕ) : List Bool :=
  (List.range chunk_size).map (fun i => decide (valid ≤ i))

/-- The joint-action buffer: `data = torch.zeros((chunk_size, CONFIG_DIM));
data[:len(vals), :] = vals`. -/
def padActions (chunk_size : ℕ) (vals : List (List ℚ)) : List (List ℚ) :=
  (List.range chunk_size).map
    (fun i => if h : i < vals.length then vals.get ⟨i, h⟩
              else List.replicate CONFIG_DIM 0)

/-- The gripper-action buffer: `data = torch.zeros(chunk_size);
data[:len(vals)] = vals`. -/
def padGripper (chunk_size : ℕ) (vals : List ℚ) : List ℚ :=
  (List.range chunk_size).map
    (fun i => if h : i < vals.length then vals.get ⟨i, h⟩ else 0)

/-- Fuel-driven worker for `replaceAll`; the fuel bounds the number of
characters consumed, so `fuel = l.length` always suffices. -/
def replaceAllFuel (pat rep : List Char) : ℕ → List Char → List Char
  | _, [] => []
  | 0, l => l
  | fuel + 1, c :: cs =>
    if 0 < pat.length ∧ pat.isPrefixOf (c :: cs) then
      rep ++ replaceAllFuel pat rep fuel (List.drop (pat.length - 1) cs)
    else
      c :: replaceAllFuel pat rep fuel cs

/-- Python's `str.replace(pat, rep)` on explicit character lists:
replace every non-overlapping occurrence of `pat`, left to right. -/
def replaceAll (pat rep l : List Char) : List Char :=
  replaceAllFuel pat rep l.length l

/-- Python substring test `pat in s`. -/
def strContains (s pat : String) : Bool :=
  decide (pat.toList <:+: s.toList)

/-- `self.file_list[index].replace(".pickle", "")[-1]`: the last character
of the filename with every `.pickle` occurrence removed (`none` when the
result is empty, where Python would raise `IndexError`). -/
def envDigit (fname : String) : Option Char :=
  (replaceAll ".pickle".toList [] fname.toList).getLast?

/-- The skill/environment-indicator block at the end of
`ReverseTrajDataset.__getitem__`. `skill_ind` starts unbound; it is
assigned only inside `if self.add_task_ind:` (on a `"backward"` /
`"forward"` substring match) or in the final `else` branch of the digit
dispatch. Reading it while unbound raises `UnboundLocalError`, modelled
as `none`. The result is `some (skill_ind, env_ind)` otherwise. -/
def getitemInds (add_task_ind : Bool) (fname : String) :
    Option (List ℚ × List ℚ) :=
  let skill0 : Option (List ℚ) :=
    if add_task_ind then
      if strContains fname "backward" then some [0, 1]
      else if strContains fname "forward" then some [1, 0]
      else none
    else none
  if envDigit fname = some '1' then
    skill0.map (fun s => (s, [1, 0, 0]))
  else if envDigit fname = some '3' then
    skill0.map (fun s => (s, [0, 1, 0]))
  else if envDigit fname = some '5' then
    skill0.map (fun s => (s, [0, 0, 1]))
  else
    some ([0, 0], [0, 0, 0])

/-- The candidate file list of `load_data`: all files when no pattern is
registered (`task_filter_key is None`), else those matching the task's
pattern (`task_filter_key.search(file)` as an abstract test). -/
def filterFiles (files : List String) (pattern : Option (String → Bool)) :
    List String :=
  match pattern with
  | none => files
  | some p => files.filter p

/-- The `else` branch of the split in `load_data`:
`split_idx = int(len(file_list) * train_split)`, train is the prefix of
that length, validation the rest. (`int` truncates toward zero; the
product is nonnegative, so it is a floor.) -/
def splitByFrac {α : Type} (train_split : ℚ) (l : List α) :
    List α × List α :=
  let split_idx := (⌊(l.length : ℚ) * train_split⌋).toNat
  (l.take split_idx, l.drop split_idx)

/-- The split in `load_data` applied to the shuffled file list. The
Python guard is `if few_shot:` — truthiness — so `few_shot = 0` (like
`few_shot = None`) takes the `train_split` branch. In the few-shot
branch train is `file_list[:few_shot]` and validation is
`file_list[few_shot : few_shot + 10]`. -/
def loadDataSplit {α : Type} (few_shot : Option ℕ) (train_split : ℚ)
    (l : List α) : List α × List α :=
  match few_shot with
  | some k =>
    if k ≠ 0 then (l.take k, (l.drop k).take 10)
    else splitByFrac train_split l
  | none => splitByFrac train_split l

/-- The files left unused by a few-shot split (everything past
`few_shot + 10`); empty in the `train_split` branch, whose two parts
exhaust the list. -/
def fewShotRemainder {α : Type} (few_shot : Option ℕ) (l : List α) :
    List α :=
  match few_shot with
  | some k => if k ≠ 0 then (l.drop k).drop 10 else []
  | none => []

end TorchData

namespace Policy

noncomputable section

/-- A batch × time × dim action tensor. -/
abbrev Mat3 := List (List (List ℝ))

/-- A batch × dim latent-parameter tensor. -/
abbrev Mat2 := List (List ℝ)

/-- Mean of a list of reals, `tensor.mean()` over a flattened tensor. -/
def listMean (l : List ℝ) : ℝ := l.sum / l.length

/-- The elementwise KL table of `kl_divergence`:
`klds = -0.5 * (1 + logvar - mu.pow(2) - logvar.exp())`. -/
def klds (mu logvar : Mat2) : Mat2 :=
  List.zipWith
    (List.zipWith (fun m lv => -(1 / 2) * (1 + lv - m ^ 2 - Real.exp lv)))
    mu logvar

/-- `total_kld = klds.sum(1).mean(0, True)` — sum over latent dimensions,
then average over the batch (a one-element tensor; this is its entry). -/
def total_kld (mu logvar : Mat2) : ℝ :=
  listMean ((klds mu logvar).map List.sum)

/-- `dimension_wise_kld = klds.mean(0)` — per-dimension batch average. -/
def dimension_wise_kld (mu logvar : Mat2) : List ℝ :=
  let t := klds mu logvar
  (List.range (t.headI.length)).map
    (fun j => listMean (t.map (fun row => row.getD j 0)))

/-- `mean_kld = klds.mean(1).mean(0, True)`. -/
def mean_kld (mu logvar : Mat2) : ℝ :=
  listMean ((klds mu logvar).map listMean)

/-- `kl_divergence(mu, logvar)`: asserts `batch_size != 0` (modelled as
`none` on an empty batch — an `AssertionError`, not a NaN), then returns
the three closed-form KL statistics. The 4-d `view` reshape only
applies to `(b, c, 1, 1)` tensors and is the identity on our 2-d model. -/
def kl_divergence (mu logvar : Mat2) : Option (ℝ × List ℝ × ℝ) :=
  if mu.length = 0 then none
  else some (total_kld mu logvar, dimension_wise_kld mu logvar,
             mean_kld mu logvar)

/-- `F.l1_loss(actions, a_hat, reduction="none")`: elementwise `|a - b|`. -/
def l1LossNone (a b : Mat3) : Mat3 :=
  List.zipWith (List.zipWith (List.zipWith (fun x y => |x - y|))) a b

/-- `all_l1 * ~is_pad.unsqueeze(-1)`: every element of a padded timestep
is multiplied by 0, every element of a valid timestep by 1. -/
def maskMul (x : Mat3) (is_pad : List (List Bool)) : Mat3 :=
  List.zipWith
    (fun row prow =>
      List.zipWith (fun v p => v.map (fun e => e * (if p then 0 else 1)))
        row prow)
    x is_pad

/-- Flattening of a batch × time × dim tensor into its element list. -/
def flatten3 (x : Mat3) : List ℝ := (x.map List.flatten).flatten

/-- `tensor.mean()`: sum of all elements over the number of elements. -/
def tensorMean (x : Mat3) : ℝ := listMean (flatten3 x)

/-- The training-mode reconstruction loss of `ACTPolicy.__call__`:
`l1 = (all_l1 * ~is_pad.unsqueeze(-1)).mean()`. -/
def maskedL1Mean (actions a_hat : Mat3) (is_pad : List (List Bool)) : ℝ :=
  tensorMean (maskMul (l1LossNone actions a_hat) is_pad)

/-- The loss the spec's words describe for C1: the masked L1 values of
the unmasked (non-padded) timesteps only, averaged over those elements
alone. Stated from the spec, to be compared with `maskedL1Mean`. -/
def unmaskedEntries (x : Mat3) (is_pad : List (List Bool)) : List ℝ :=
  (List.zipWith
    (fun row prow =>
      (List.zipWith (fun (v : List ℝ) (p : Bool) => if p then [] else v)
        row prow).flatten)
    x is_pad).flatten

/-- Average of `|actions - a_hat|` over the unmasked elements only
(the spec's reading of the C1 sentence). -/
def specL1Avg (actions a_hat : Mat3) (is_pad : List (List Bool)) : ℝ :=
  listMean (unmaskedEntries (l1LossNone actions a_hat) is_pad)

/-- The `ACTPolicy` configuration read from `args_override`:
`kl_weight`, the few-shot flag, and `ent_weight` (where `0` stands for
any Python-falsy configured value, including `None`). -/
structure ACTArgs where
  kl_weight : ℝ
  few_shot : Bool
  ent_weight : ℝ

/-- Output of one backbone call in training mode: the predicted action
chunk and the latent parameters. The predicted pad logits are unused by
the loss, so they are omitted. -/
structure BackboneOut where
  a_hat : Mat3
  mu : Mat2
  logvar : Mat2

/-- The training-mode `loss_dict` of `ACTPolicy.__call__`. -/
structure LossDict where
  l1 : ℝ
  l1_uninf : ℝ
  kl : ℝ
  loss : ℝ

/-- `self.ent_weight if self.ent_weight else 0.01`: the configured
entropy weight when truthy, the 0.01 default otherwise. -/
def effEntWeight (args : ACTArgs) : ℝ :=
  if args.ent_weight ≠ 0 then args.ent_weight else 0.01

/-- `torch.zeros(skill_ind.shape)`: an all-zero vector of the same
shape as the given skill indicator. -/
def zerosLike (skill_ind : List ℝ) : List ℝ :=
  skill_ind.map (fun _ => 0)

/-- Training-mode `ACTPolicy.__call__`. The backbone is an opaque
collaborator: `model` closes over `qpos`, the (ImageNet-normalized)
images, `env_state = None` and `env_ind`, and takes the arguments this
method varies — the truncated actions, the truncated pad mask, and the
skill indicator. Steps mirror the source: truncate `actions` and
`is_pad` to `num_queries`; run the backbone; compute the KL statistics
(`none` on an empty latent batch, where the `assert` fires); compute the
masked L1; when the few-shot flag is off, rerun the backbone with a
zeroed skill indicator and add the scaled uninformative L1; total
`loss = l1 + l1_uninf + kl * kl_weight`. -/
def actPolicyCall (args : ACTArgs) (num_queries : ℕ)
    (model : Mat3 → List (List Bool) → List ℝ → BackboneOut)
    (actions : Mat3) (is_pad : List (List Bool)) (skill_ind : List ℝ) :
    Option LossDict :=
  let actionsQ := actions.map (fun row => row.take num_queries)
  let is_padQ := is_pad.map (fun row => row.take num_queries)
  let out := model actionsQ is_padQ skill_ind
  (kl_divergence out.mu out.logvar).map (fun kld =>
    let l1 := maskedL1Mean actionsQ out.a_hat is_padQ
    let l1_uninf : ℝ :=
      if args.few_shot then 0
      else
        let outU := model actionsQ is_padQ (zerosLike skill_ind)
        effEntWeight args * maskedL1Mean actionsQ outU.a_hat is_padQ
    { l1 := l1, l1_uninf := l1_uninf, kl := kld.1,
      loss := l1 + l1_uninf + kld.1 * args.kl_weight })

/-- Shape predicate for a batch × time × dim tensor. -/
def shape3 (x : Mat3) (B T D : ℕ) : Prop :=
  x.length = B ∧ ∀ r ∈ x, r.length = T ∧ ∀ v ∈ r, v.length = D

/-- Shape predicate for a batch × time boolean mask. -/
def shape2 (p : List (List Bool)) (B T : ℕ) : Prop :=
  p.length = B ∧ ∀ r ∈ p, r.length = T

end

end Policy

namespace Policy

/-- One all-zero latent row contributes an all-zero KL row. -/
theorem klds_row_zero (d : ℕ) :
    List.zipWith (fun m lv => -(1 / 2) * (1 + lv - m ^ 2 - Real.exp lv))
      (List.replicate d (0 : ℝ)) (List.replicate d (0 : ℝ)) =
      List.replicate d (0 : ℝ) := by
  induction d with
  | zero => rfl
  | succ d ih =>
    simp only [List.replicate_succ, List.zipWith_cons_cons]
    refine congrArg₂ _ ?_ ih
    rw [Real.exp_zero]
    ring

/-- The elementwise KL table vanishes on all-zero `mu` and `logvar`. -/
theorem klds_zero (b d : ℕ) :
    klds (List.replicate b (List.replicate d 0))
      (List.replicate b (List.replicate d 0)) =
      List.replicate b (List.replicate d 0) := by
  induction b with
  | zero => rfl
  | succ b ih =>
    simp only [List.replicate_succ, klds, List.zipWith_cons_cons] at ih ⊢
    exact congrArg₂ _ (klds_row_zero d) ih

/-- Closed form of `total_kld` on a one-element batch with one latent
dimension. -/
theorem total_kld_single (m c : ℝ) :
    total_kld [[m]] [[c]] = -(1 / 2) * (1 + c - m ^ 2 - Real.exp c) := by
  simp [total_kld, klds, listMean]

/-- C6: `kl_divergence` computes the closed-form KL to a standard
normal prior, summed over latent dimensions then batch-averaged; it is 0
at `mu = 0, logvar = 0` (any batch/latent shape), and for any fixed
`logvar = c ≤ -1` it exceeds every bound once `|mu|` is large enough. -/
theorem c6_kl_divergence :
    (∀ b d : ℕ,
      total_kld (List.replicate b (List.replicate d 0))
        (List.replicate b (List.replicate d 0)) = 0) ∧
    (∀ c : ℝ, c ≤ -1 → ∀ M : ℝ, ∃ m0 : ℝ, 0 < m0 ∧
      ∀ m : ℝ, m0 ≤ |m| → M ≤ total_kld [[m]] [[c]]) := by
  constructor
  · intro b d
    rw [total_kld, klds_zero]
    simp [listMean, List.sum_replicate]
  · intro c hc M
    refine ⟨Real.sqrt (2 * |M| + 1), Real.sqrt_pos.mpr (by positivity), ?_⟩
    intro m hm
    rw [total_kld_single]
    have h1 : 0 < Real.exp c := Real.exp_pos c
    have h2 : m ^ 2 = |m| ^ 2 := (sq_abs m).symm
    have h3 : Real.sqrt (2 * |M| + 1) ^ 2 = 2 * |M| + 1 :=
      Real.sq_sqrt (by positivity)
    have h4 : 2 * |M| + 1 ≤ |m| ^ 2 := by
      rw [← h3]
      exact pow_le_pow_left₀ (Real.sqrt_nonneg _) hm 2
    nlinarith [le_abs_self M, abs_nonneg M]

/-- C6 witness: zero statistics at the standard normal, and unbounded
growth at `logvar = -2`, bound `M = 7`. -/
theorem c6_kl_divergence_witness :
    total_kld [[(0 : ℝ)]] [[(0 : ℝ)]] = 0 ∧
    ∃ m0 : ℝ, 0 < m0 ∧
      ∀ m : ℝ, m0 ≤ |m| → (7 : ℝ) ≤ total_kld [[m]] [[(-2 : ℝ)]] := by
  constructor
  · have h := c6_kl_divergence.1 1 1
    simpa using h
  · exact c6_kl_divergence.2 (-2) (by norm_num) 7

/-- C10: `kl_divergence` hits its `assert batch_size != 0` precondition
exactly on an empty batch (no silent NaN), and returns its three
statistics normally on every nonzero batch. -/
theorem c10_kl_zero_batch :
    (∀ logvar : Mat2, kl_divergence [] logvar = none) ∧
    (∀ (mu logvar : Mat2), mu ≠ [] →
      kl_divergence mu logvar =
        some (total_kld mu logvar, dimension_wise_kld mu logvar,
              mean_kld mu logvar)) := by
  constructor
  · intro lv
    rfl
  · intro mu lv h
    simp [kl_divergence, List.length_eq_zero, h]

/-- C10 witness: empty batch vs the one-element batch `mu = logvar = [[0]]`. -/
theorem c10_kl_zero_batch_witness :
    kl_divergence [] [] = none ∧
    kl_divergence [[(0 : ℝ)]] [[(0 : ℝ)]] =
      some (total_kld [[(0 : ℝ)]] [[(0 : ℝ)]],
            dimension_wise_kld [[(0 : ℝ)]] [[(0 : ℝ)]],
            mean_kld [[(0 : ℝ)]] [[(0 : ℝ)]]) :=
  ⟨c10_kl_zero_batch.1 [], c10_kl_zero_batch.2 [[0]] [[0]] (by simp)⟩

/-- C1 counterexample: one sample, two timesteps (second padded), one
action dimension, unit error everywhere. The code's `.mean()` divides
the masked sum 1 by ALL 2 elements, giving 1/2; the average over the
single unmasked element is 1. -/
theorem c1_l1_mean_counterexample :
    maskedL1Mean [[[1], [1]]] [[[0], [0]]] [[false, true]] = 1 / 2 ∧
    specL1Avg [[[1], [1]]] [[[0], [0]]] [[false, true]] = 1 ∧
    maskedL1Mean [[[1], [1]]] [[[0], [0]]] [[false, true]] ≠
      specL1Avg [[[1], [1]]] [[[0], [0]]] [[false, true]] := by
  have h1 : maskedL1Mean [[[1], [1]]] [[[0], [0]]] [[false, true]] = 1 / 2 := by
    norm_num [maskedL1Mean, tensorMean, listMean, flatten3, maskMul, l1LossNone]
  have h2 : specL1Avg [[[1], [1]]] [[[0], [0]]] [[false, true]] = 1 := by
    norm_num [specL1Avg, listMean, unmaskedEntries, l1LossNone]
  refine ⟨h1, h2, ?_⟩
  rw [h1, h2]
  norm_num

/-- Unfolding `l1LossNone` on a cons cell. -/
theorem l1LossNone_cons (a ah : List (List ℝ)) (A Ah : Mat3) :
    l1LossNone (a :: A) (ah :: Ah) =
      List.zipWith (List.zipWith (fun x y => |x - y|)) a ah ::
        l1LossNone A Ah := rfl

/-- Unfolding `maskMul` on a cons cell. -/
theorem maskMul_cons (r : List (List ℝ)) (p : List Bool) (X : Mat3)
    (P : List (List Bool)) :
    maskMul (r :: X) (p :: P) =
      List.zipWith (fun (v : List ℝ) (pb : Bool) =>
        v.map (fun e => e * (if pb then 0 else 1))) r p :: maskMul X P := rfl

/-- Unfolding `flatten3` on a cons cell. -/
theorem flatten3_cons (x : List (List ℝ)) (X : Mat3) :
    flatten3 (x :: X) = x.flatten ++ flatten3 X := by
  simp [flatten3]

/-- Within one sample, masking zeroes the padded timesteps, so the
masked sum equals the sum over unmasked entries alone. -/
theorem maskMul_row_flatten_sum :
    ∀ (row : List (List ℝ)) (prow : List Bool),
    ((List.zipWith (fun (v : List ℝ) (p : Bool) =>
        v.map (fun e => e * (if p then 0 else 1))) row prow).flatten).sum =
    ((List.zipWith (fun (v : List ℝ) (p : Bool) =>
        if p then [] else v) row prow).flatten).sum
  | [], _ => by simp
  | _ :: _, [] => by simp
  | v :: row, p :: prow => by
    simp only [List.zipWith_cons_cons, List.flatten_cons, List.sum_append]
    rw [maskMul_row_flatten_sum row prow]
    congr 1
    cases p
    · simp
    · simp [List.sum_map_mul_right]

/-- Over the whole batch, the masked tensor's total equals the sum over
unmasked entries. -/
theorem maskMul_flatten_sum : ∀ (X : Mat3) (P : List (List Bool)),
    (flatten3 (maskMul X P)).sum = (unmaskedEntries X P).sum
  | [], P => by simp [flatten3, maskMul, unmaskedEntries]
  | _ :: _, [] => by simp [flatten3, maskMul, unmaskedEntries]
  | r :: X, p :: P => by
    simp only [maskMul, unmaskedEntries, List.zipWith_cons_cons, flatten3,
      List.map_cons, List.flatten_cons, List.sum_append]
    refine congrArg₂ _ (maskMul_row_flatten_sum r p) ?_
    exact maskMul_flatten_sum X P

/-- One sample of the masked L1 tensor flattens to `T * D` elements. -/
theorem masked_row_length :
    ∀ (a ah : List (List ℝ)) (p : List Bool) (D : ℕ),
    ah.length = a.length → p.length = a.length →
    (∀ v ∈ a, v.length = D) → (∀ v ∈ ah, v.length = D) →
    ((List.zipWith (fun (v : List ℝ) (pb : Bool) =>
        v.map (fun e => e * (if pb then 0 else 1)))
      (List.zipWith (List.zipWith (fun x y => |x - y|)) a ah) p).flatten).length
      = a.length * D
  | [], ah, p, D, _, _, _, _ => by simp
  | v :: a, ah, p, D, h1, h2, ha, hah => by
    match ah, p with
    | [], _ => simp at h1
    | _ :: _, [] => simp at h2
    | w :: ah, pb :: p =>
      simp only [List.zipWith_cons_cons, List.flatten_cons, List.length_append,
        List.length_map, List.length_zipWith, List.length_cons]
      have hv : v.length = D := ha v (List.mem_cons_self v a)
      have hw : w.length = D := hah w (List.mem_cons_self w ah)
      have hrec := masked_row_length a ah p D
        (by simpa using h1) (by simpa using h2)
        (fun u hu => ha u (List.mem_cons_of_mem v hu))
        (fun u hu => hah u (List.mem_cons_of_mem w hu))
      rw [hrec, hv, hw, min_self]
      ring

/-- The flattened masked L1 tensor of a `B × T × D` batch has exactly
`B * T * D` elements. -/
theorem masked_flatten_length :
    ∀ (A Ah : Mat3) (P : List (List Bool)) (B T D : ℕ),
    shape3 A B T D → shape3 Ah B T D → shape2 P B T →
    (flatten3 (maskMul (l1LossNone A Ah) P)).length = B * T * D
  | [], Ah, P, B, T, D, hA, _, _ => by
    obtain ⟨hlen, _⟩ := hA
    simp [flatten3, maskMul, l1LossNone, ← hlen]
  | a :: A, Ah, P, B, T, D, hA, hAh, hP => by
    obtain ⟨hlenA, hrowA⟩ := hA
    obtain ⟨hlenAh, hrowAh⟩ := hAh
    obtain ⟨hlenP, hrowP⟩ := hP
    match Ah, P with
    | [], _ => simp [← hlenA] at hlenAh
    | _ :: _, [] => simp [← hlenA] at hlenP
    | ah :: Ah, p :: P =>
      rw [l1LossNone_cons, maskMul_cons, flatten3_cons, List.length_append]
      have hhead : ((List.zipWith (fun (v : List ℝ) (pb : Bool) =>
          v.map (fun e => e * (if pb then 0 else 1)))
          (List.zipWith (List.zipWith (fun x y => |x - y|)) a ah) p).flatten).length
          = a.length * D := by
        refine masked_row_length a ah p D ?_ ?_ ?_ ?_
        · rw [(hrowAh ah (List.mem_cons_self ah Ah)).1,
            (hrowA a (List.mem_cons_self a A)).1]
        · rw [hrowP p (List.mem_cons_self p P),
            (hrowA a (List.mem_cons_self a A)).1]
        · exact (hrowA a (List.mem_cons_self a A)).2
        · exact (hrowAh ah (List.mem_cons_self ah Ah)).2
      have hrest : (flatten3 (maskMul (l1LossNone A Ah) P)).length =
          A.length * T * D := by
        refine masked_flatten_length A Ah P A.length T D
          ⟨rfl, fun r hr => hrowA r (List.mem_cons_of_mem a hr)⟩
          ⟨?_, fun r hr => hrowAh r (List.mem_cons_of_mem ah hr)⟩
          ⟨?_, fun r hr => hrowP r (List.mem_cons_of_mem p hr)⟩
        · simpa [← hlenA] using hlenAh
        · simpa [← hlenA] using hlenP
      rw [hhead, hrest, (hrowA a (List.mem_cons_self a A)).1, ← hlenA,
        List.length_cons]
      ring

/-- C1 amended: the training-mode reconstruction loss is the L1 error
masked to exclude padded timesteps, but the `.mean()` divides the masked
sum by the TOTAL number of elements `B * T * D` (padded positions
included in the denominator), not by the number of unmasked elements. -/
theorem c1_l1_mean_amended (A Ah : Mat3) (P : List (List Bool)) (B T D : ℕ)
    (hA : shape3 A B T D) (hAh : shape3 Ah B T D) (hP : shape2 P B T) :
    maskedL1Mean A Ah P =
      (unmaskedEntries (l1LossNone A Ah) P).sum / ((B * T * D : ℕ) : ℝ) := by
  simp only [maskedL1Mean, tensorMean, listMean]
  rw [maskMul_flatten_sum, masked_flatten_length A Ah P B T D hA hAh hP]

/-- C1 amended witness: the counterexample's batch, with `B = 1`,
`T = 2`, `D = 1`. -/
theorem c1_l1_mean_amended_witness :
    maskedL1Mean [[[1], [1]]] [[[0], [0]]] [[false, true]] =
      (unmaskedEntries (l1LossNone [[[1], [1]]] [[[0], [0]]])
        [[false, true]]).sum / ((1 * 2 * 1 : ℕ) : ℝ) :=
  c1_l1_mean_amended [[[1], [1]]] [[[0], [0]]] [[false, true]] 1 2 1
    (by simp [shape3]) (by simp [shape3]) (by simp [shape2])

/-- C5: in training mode (with a nonempty latent batch, so the KL
assertion passes), `ACTPolicy.__call__` returns a loss dictionary whose
total is exactly `l1 + l1_uninf + kl * kl_weight`, where `kl` is the
batch-averaged total KL, `l1` the masked-L1 mean against the backbone's
prediction, and `l1_uninf` is the masked-L1 mean of a second backbone
pass with a zeroed skill indicator scaled by the effective entropy
weight (the configured weight when truthy, else the 0.01 default) when
the few-shot flag is disabled, and `0` otherwise. `actionsQ` and
`is_padQ` name the truncations to `num_queries`. -/
theorem c5_loss_decomposition (args : ACTArgs) (nq : ℕ)
    (model : Mat3 → List (List Bool) → List ℝ → BackboneOut)
    (actions actionsQ : Mat3) (is_pad is_padQ : List (List Bool))
    (skill_ind : List ℝ)
    (hAQ : actionsQ = actions.map (fun r => r.take nq))
    (hPQ : is_padQ = is_pad.map (fun r => r.take nq))
    (hmu : (model actionsQ is_padQ skill_ind).mu ≠ []) :
    ∃ d : LossDict,
      actPolicyCall args nq model actions is_pad skill_ind = some d ∧
      d.loss = d.l1 + d.l1_uninf + d.kl * args.kl_weight ∧
      d.kl = total_kld (model actionsQ is_padQ skill_ind).mu
        (model actionsQ is_padQ skill_ind).logvar ∧
      d.l1 = maskedL1Mean actionsQ
        (model actionsQ is_padQ skill_ind).a_hat is_padQ ∧
      d.l1_uninf = (if args.few_shot then 0
        else effEntWeight args * maskedL1Mean actionsQ
          (model actionsQ is_padQ (zerosLike skill_ind)).a_hat is_padQ) := by
  have hlen : ¬ ((model actionsQ is_padQ skill_ind).mu.length = 0) := by
    simpa [List.length_eq_zero] using hmu
  refine ⟨⟨maskedL1Mean actionsQ (model actionsQ is_padQ skill_ind).a_hat
      is_padQ,
    (if args.few_shot then 0
      else effEntWeight args * maskedL1Mean actionsQ
        (model actionsQ is_padQ (zerosLike skill_ind)).a_hat is_padQ),
    total_kld (model actionsQ is_padQ skill_ind).mu
      (model actionsQ is_padQ skill_ind).logvar,
    maskedL1Mean actionsQ (model actionsQ is_padQ skill_ind).a_hat is_padQ +
      (if args.few_shot then 0
        else effEntWeight args * maskedL1Mean actionsQ
          (model actionsQ is_padQ (zerosLike skill_ind)).a_hat is_padQ) +
      total_kld (model actionsQ is_padQ skill_ind).mu
        (model actionsQ is_padQ skill_ind).logvar * args.kl_weight⟩,
    ?_, rfl, rfl, rfl, rfl⟩
  subst hAQ hPQ
  simp only [actPolicyCall, kl_divergence, if_neg hlen, Option.map_some']

/-- C5 witness: a constant backbone stub on a one-element batch,
`kl_weight = 1`, few-shot disabled, `ent_weight = 0` (falsy). -/
theorem c5_loss_decomposition_witness :
    ∃ d : LossDict,
      actPolicyCall ⟨1, false, 0⟩ 1
        (fun _ _ _ => ⟨[[[0]]], [[0]], [[0]]⟩) [[[1]]] [[false]] [0, 0] =
        some d ∧
      d.loss = d.l1 + d.l1_uninf + d.kl * (ACTArgs.mk 1 false 0).kl_weight ∧
      d.kl = total_kld
        ((fun (_ : Mat3) (_ : List (List Bool)) (_ : List ℝ) =>
          BackboneOut.mk [[[0]]] [[0]] [[0]]) [[[1]]] [[false]] [0, 0]).mu
        ((fun (_ : Mat3) (_ : List (List Bool)) (_ : List ℝ) =>
          BackboneOut.mk [[[0]]] [[0]] [[0]]) [[[1]]] [[false]] [0, 0]).logvar ∧
      d.l1 = maskedL1Mean [[[1]]]
        ((fun (_ : Mat3) (_ : List (List Bool)) (_ : List ℝ) =>
          BackboneOut.mk [[[0]]] [[0]] [[0]]) [[[1]]] [[false]] [0, 0]).a_hat
        [[false]] ∧
      d.l1_uninf = (if (ACTArgs.mk 1 false 0).few_shot then 0
        else effEntWeight (ACTArgs.mk 1 false 0) *
          maskedL1Mean [[[1]]]
            ((fun (_ : Mat3) (_ : List (List Bool)) (_ : List ℝ) =>
              BackboneOut.mk [[[0]]] [[0]] [[0]]) [[[1]]] [[false]]
              (zerosLike [0, 0])).a_hat [[false]]) :=
  c5_loss_decomposition ⟨1, false, 0⟩ 1
    (fun _ _ _ => ⟨[[[0]]], [[0]], [[0]]⟩) [[[1]]] [[[1]]] [[false]] [[false]]
    [0, 0] rfl rfl (by simp)

end Policy

namespace TorchData

/-- Scalar round-trip of the min-max maps, for one dimension with
strictly ordered bounds. -/
theorem roundtrip_scalar (a b x : ℚ) (h : a < b) :
    ((x - a) / (b - a) * 2 - 1 + 1) / 2 * (b - a) + a = x := by
  have hne : b - a ≠ 0 := sub_ne_zero.mpr (ne_of_gt h)
  field_simp
  ring

/-- List-level round-trip over a zipped bounds table. -/
theorem roundtrip_zip : ∀ (x : List ℚ) (z : List (ℚ × ℚ)),
    (∀ p ∈ z, p.1 < p.2) →
    List.zipWith (fun x (p : ℚ × ℚ) => (x + 1) / 2 * (p.2 - p.1) + p.1)
      (List.zipWith (fun x (p : ℚ × ℚ) => (x - p.1) / (p.2 - p.1) * 2 - 1) x z)
      z = x.take z.length
  | [], _, _ => by simp
  | _ :: _, [], _ => by simp
  | x :: xs, p :: z, h => by
    simp only [List.zipWith_cons_cons, List.length_cons, List.take_succ_cons,
      List.cons.injEq]
    exact ⟨roundtrip_scalar p.1 p.2 x (h p (List.mem_cons_self p z)),
      roundtrip_zip xs z (fun q hq => h q (List.mem_cons_of_mem p hq))⟩

/-- C9: for every bounds table with `min < max` in every dimension and
every `x` with each dimension inside `[min, max]`,
`inverse_transform (transform x) = x` (exactly, over `ℚ`). -/
theorem c9_normalizer_roundtrip (n : ConfigMinMaxNormalization) (x : List ℚ)
    (hlen1 : x.length = n.bmin.length) (hlen2 : n.bmin.length = n.bmax.length)
    (hlt : List.Forall₂ (fun a b => a < b) n.bmin n.bmax)
    (hlo : List.Forall₂ (fun a v => a ≤ v) n.bmin x)
    (hhi : List.Forall₂ (fun v b => v ≤ b) x n.bmax) :
    inverse_transform n (transform n x) = x := by
  have hz : ∀ p ∈ List.zip n.bmin n.bmax, p.1 < p.2 := by
    intro p hp
    obtain ⟨a, b⟩ := p
    exact (List.forall₂_iff_zip.mp hlt).2 hp
  have hzl : (List.zip n.bmin n.bmax).length = x.length := by
    simp [List.length_zip, hlen1, hlen2]
  have := roundtrip_zip x (List.zip n.bmin n.bmax) hz
  simpa [transform, inverse_transform, hzl] using this

/-- C9 witness: bounds `[(0, 2)]`, `x = [1]`. -/
theorem c9_normalizer_roundtrip_witness :
    inverse_transform ⟨[0], [2]⟩ (transform ⟨[0], [2]⟩ [1]) = [1] :=
  c9_normalizer_roundtrip ⟨[0], [2]⟩ [1] (by decide) (by decide)
    (List.Forall₂.cons (by norm_num) List.Forall₂.nil)
    (List.Forall₂.cons (by norm_num) List.Forall₂.nil)
    (List.Forall₂.cons (by norm_num) List.Forall₂.nil)

/-- C2 counterexample: bounds `[(0, 2)]` and the strictly in-bounds
timestep `[1]`. The claim predicts the stored value
`clamp (transform [1]) = [0]`, but the loop stores `clamp` of the
original value, `[1]`. -/
theorem c2_clamp_counterexample :
    validate_bounds ⟨[0], [2]⟩ [1] = true ∧
    processTimestep ⟨[0], [2]⟩ [1] = [1] ∧
    clamp ⟨[0], [2]⟩ (transform ⟨[0], [2]⟩ [1]) = [0] ∧
    processTimestep ⟨[0], [2]⟩ [1] ≠
      clamp ⟨[0], [2]⟩ (transform ⟨[0], [2]⟩ [1]) := by
  have ht : transform ⟨[0], [2]⟩ [1] = [0] := by
    norm_num [transform]
  have hp : processTimestep ⟨[0], [2]⟩ [1] = [1] := by
    norm_num [processTimestep, clamp, min_def, max_def]
  have hc : clamp ⟨[0], [2]⟩ [0] = [0] := by
    norm_num [clamp, min_def, max_def]
  refine ⟨by decide, hp, by rw [ht]; exact hc, by rw [ht, hp, hc]; decide⟩

/-- `clamp` is the identity on a value that `validate_bounds` accepts. -/
theorem clamp_of_validate : ∀ (js lo hi : List ℚ),
    ((List.zipWith (fun x m => decide (m < x)) js lo).all id &&
     (List.zipWith (fun x m => decide (x < m)) js hi).all id) = true →
    List.zipWith (fun x (p : ℚ × ℚ) => min (max x p.1) p.2)
      js (List.zip lo hi) = js.take (min lo.length hi.length)
  | [], _, _, _ => by simp
  | _ :: _, [], _, _ => by simp
  | _ :: _, _ :: _, [], _ => by simp
  | j :: js, a :: lo, b :: hi, h => by
    simp only [List.zipWith_cons_cons, List.all_cons, Bool.and_eq_true, id_eq,
      decide_eq_true_eq] at h
    obtain ⟨⟨h1, h2⟩, h3, h4⟩ := h
    simp only [List.zip_cons_cons, List.zipWith_cons_cons, List.length_cons,
      Nat.succ_min_succ, List.take_succ_cons, List.cons.injEq]
    refine ⟨?_, clamp_of_validate js lo hi (by simp [h2, h4])⟩
    rw [max_eq_left (le_of_lt h1), min_eq_left (le_of_lt h3)]

/-- C2 amended: in `__getitem__`, each timestep of a position chunk is
checked with `validate_bounds` and, if strictly in-bounds, its transform
is computed — but the value stored is always the clamp of the ORIGINAL
raw value, which overwrites the transform; for an in-bounds timestep the
stored value is therefore the raw value itself, not the clamp of its
transformed value. -/
theorem c2_clamp_amended (n : ConfigMinMaxNormalization) (js : List ℚ)
    (hlen1 : js.length = n.bmin.length) (hlen2 : n.bmin.length = n.bmax.length)
    (hv : validate_bounds n js = true) :
    processTimestep n js = clamp n js ∧ clamp n js = js := by
  refine ⟨rfl, ?_⟩
  have h := clamp_of_validate js n.bmin n.bmax (by simpa [validate_bounds] using hv)
  rw [show min n.bmin.length n.bmax.length = js.length by omega] at h
  simpa [clamp, List.take_length] using h

/-- C2 amended witness: bounds `[(0, 2)]`, `js = [1]`. -/
theorem c2_clamp_amended_witness :
    processTimestep ⟨[0], [2]⟩ [1] = clamp ⟨[0], [2]⟩ [1] ∧
    clamp ⟨[0], [2]⟩ [1] = [1] :=
  c2_clamp_amended ⟨[0], [2]⟩ [1] (by decide) (by decide) (by decide)

/-- C3 counterexample: the door file `demo_forward_2.pickle` with
indicators enabled matches `"forward"`, yet the digit-dispatch `else`
branch overwrites the skill indicator with zeros, so the item does not
carry the correct skill indicator; and for a box file with indicators
disabled, `skill_ind` is never assigned and no item is produced at all. -/
theorem c3_indicator_counterexample :
    strContains "demo_forward_2.pickle" "forward" = true ∧
    getitemInds true "demo_forward_2.pickle" = some ([0, 0], [0, 0, 0]) ∧
    getitemInds true "demo_forward_2.pickle" ≠ some ([1, 0], [0, 0, 0]) ∧
    getitemInds false "demo_forward_1.pickle" = none :=
  ⟨by decide, by decide, by decide, by decide⟩

/-- C3 amended: the environment indicator is derived from the trailing
digit unconditionally and the skill indicator from `"backward"` /
`"forward"` only when `add_task_ind` is enabled — but when the digit
matches none of 1/3/5 the `else` branch sets BOTH indicators to all-zero
vectors, discarding any matched skill; and when the digit does match
1/3/5 while no skill indicator was assigned (indicators disabled, or no
substring matched), the lookup of the unbound `skill_ind` aborts the
item instead of defaulting to zeros. -/
theorem c3_indicator_amended :
    (∀ (add : Bool) (f : String),
      envDigit f ≠ some '1' → envDigit f ≠ some '3' → envDigit f ≠ some '5' →
      getitemInds add f = some ([0, 0], [0, 0, 0])) ∧
    (∀ f : String, envDigit f = some '1' →
      getitemInds false f = none) ∧
    (∀ f : String, envDigit f = some '1' →
      strContains f "backward" = false → strContains f "forward" = true →
      getitemInds true f = some ([1, 0], [1, 0, 0])) ∧
    (∀ f : String, envDigit f = some '3' →
      strContains f "backward" = true →
      getitemInds true f = some ([0, 1], [0, 1, 0])) := by
  refine ⟨?_, ?_, ?_, ?_⟩
  · intro add f h1 h3 h5
    simp [getitemInds, h1, h3, h5]
  · intro f h1
    simp [getitemInds, h1]
  · intro f h1 hb hf
    simp [getitemInds, h1, hb, hf]
  · intro f h3 hb
    simp [getitemInds, h3, hb]

/-- C3 amended witness: a grill-digit-free file, and box/toilet files
with matching skill substrings. -/
theorem c3_indicator_amended_witness :
    getitemInds true "demo_forward_4.pickle" = some ([0, 0], [0, 0, 0]) ∧
    getitemInds false "demo_forward_1.pickle" = none ∧
    getitemInds true "demo_forward_1.pickle" = some ([1, 0], [1, 0, 0]) ∧
    getitemInds true "demo_backward_3.pickle" = some ([0, 1], [0, 1, 0]) :=
  ⟨c3_indicator_amended.1 true "demo_forward_4.pickle"
      (by decide) (by decide) (by decide),
   c3_indicator_amended.2.1 "demo_forward_1.pickle" (by decide),
   c3_indicator_amended.2.2.1 "demo_forward_1.pickle"
      (by decide) (by decide) (by decide),
   c3_indicator_amended.2.2.2 "demo_backward_3.pickle"
      (by decide) (by decide)⟩

/-- The pad mask is `v` `false`s followed by `c - v` `true`s. -/
theorem mkIsPad_eq_append (c v : ℕ) (h : v ≤ c) :
    mkIsPad c v = List.replicate v false ++ List.replicate (c - v) true := by
  apply List.ext_getElem
  · simp [mkIsPad]
    omega
  · intro i h1 h2
    simp only [mkIsPad, List.getElem_map, List.getElem_range]
    by_cases hiv : i < v
    · rw [List.getElem_append_left (by simpa using hiv)]
      simp [List.getElem_replicate]
      omega
    · rw [List.getElem_append_right (by simpa using hiv)]
      simp [List.getElem_replicate]
      omega

/-- Where the pad mask reads `true`, the index is past the valid data
and inside the chunk. -/
theorem mkIsPad_getD_true (c v i : ℕ)
    (h : (mkIsPad c v).getD i false = true) : v ≤ i ∧ i < c := by
  by_cases hic : i < c
  · refine ⟨?_, hic⟩
    rw [List.getD_eq_getElem?_getD] at h
    simp only [mkIsPad, List.getElem?_map, List.getElem?_range, hic] at h
    simpa using h
  · exfalso
    rw [List.getD_eq_getElem?_getD] at h
    have : (mkIsPad c v).length = c := by simp [mkIsPad]
    rw [List.getElem?_eq_none (by omega)] at h
    simp at h

/-- Past the valid chunk data, the joint-action buffer holds zero rows. -/
theorem padActions_getD (c : ℕ) (vals : List (List ℚ)) (i : ℕ)
    (hvi : vals.length ≤ i) (hic : i < c) :
    (padActions c vals).getD i [] = List.replicate CONFIG_DIM 0 := by
  rw [List.getD_eq_getElem?_getD]
  simp only [padActions, List.getElem?_map, List.getElem?_range, hic]
  simp [dif_neg (by omega : ¬ i < vals.length)]

/-- Past the valid chunk data, the gripper buffer holds zeros. -/
theorem padGripper_getD (c : ℕ) (vals : List ℚ) (i : ℕ)
    (hvi : vals.length ≤ i) (hic : i < c) :
    (padGripper c vals).getD i 0 = 0 := by
  rw [List.getD_eq_getElem?_getD]
  simp only [padGripper, List.getElem?_map, List.getElem?_range, hic]
  simp [dif_neg (by omega : ¬ i < vals.length)]

/-- C4: for every episode length `L` and sampled start `s ≤ L`, the pad
mask built by `__getitem__` has exactly `min(L, s+chunk_size) - s`
`false` entries at the front and `true` entries after, and both action
buffers are zero at every index where the mask is `true`. -/
theorem c4_pad_mask (L s chunk_size : ℕ) (demo : List (List ℚ))
    (gdemo : List ℚ) (hL : demo.length = L) (hgL : gdemo.length = L)
    (hs : s ≤ L) :
    mkIsPad chunk_size (min L (s + chunk_size) - s) =
      List.replicate (min L (s + chunk_size) - s) false ++
      List.replicate (chunk_size - (min L (s + chunk_size) - s)) true ∧
    (∀ i : ℕ,
      (mkIsPad chunk_size (min L (s + chunk_size) - s)).getD i false = true →
      (padActions chunk_size
          (sliceChunk demo s (min L (s + chunk_size)))).getD i [] =
        List.replicate CONFIG_DIM 0 ∧
      (padGripper chunk_size
          (sliceChunk gdemo s (min L (s + chunk_size)))).getD i 0 = 0) := by
  have hlen1 : (sliceChunk demo s (min L (s + chunk_size))).length =
      min L (s + chunk_size) - s := by
    simp [sliceChunk, hL]
    omega
  have hlen2 : (sliceChunk gdemo s (min L (s + chunk_size))).length =
      min L (s + chunk_size) - s := by
    simp [sliceChunk, hgL]
    omega
  refine ⟨mkIsPad_eq_append _ _ (by omega), ?_⟩
  intro i hi
  obtain ⟨hvi, hic⟩ := mkIsPad_getD_true _ _ _ hi
  exact ⟨padActions_getD _ _ _ (by omega) hic,
         padGripper_getD _ _ _ (by omega) hic⟩

/-- C4 witness: a 2-step episode, start 1, chunk size 3. -/
theorem c4_pad_mask_witness :
    mkIsPad 3 (min 2 (1 + 3) - 1) =
      List.replicate (min 2 (1 + 3) - 1) false ++
      List.replicate (3 - (min 2 (1 + 3) - 1)) true ∧
    (∀ i : ℕ,
      (mkIsPad 3 (min 2 (1 + 3) - 1)).getD i false = true →
      (padActions 3 (sliceChunk [[5], [6]] 1 (min 2 (1 + 3)))).getD i [] =
        List.replicate CONFIG_DIM 0 ∧
      (padGripper 3 (sliceChunk [5, 6] 1 (min 2 (1 + 3)))).getD i 0 = 0) :=
  c4_pad_mask 2 1 3 [[5], [6]] [5, 6] (by decide) (by decide) (by decide)

/-- C7 counterexample: `few_shot = 0` on ten matched files. The claim
predicts an empty train list (`min 0 10 = 0` entries); the code's
truthiness guard `if few_shot:` routes `0` to the 0.8 train split,
yielding eight train files. -/
theorem c7_few_shot_counterexample :
    (loadDataSplit (some 0) (4 / 5 : ℚ) (List.range 10)).1.length = 8 ∧
    (loadDataSplit (some 0) (4 / 5 : ℚ) (List.range 10)).1.length ≠
      min 0 (List.range 10).length := by
  have h : (loadDataSplit (some 0) (4 / 5 : ℚ) (List.range 10)).1.length = 8 := by
    simp [loadDataSplit, splitByFrac]
    norm_num
    decide
  exact ⟨h, by rw [h]; decide⟩

/-- C7 amended: for every NONZERO few-shot count `k`, the train list is
exactly the first `min(k, len)` files of the shuffled matched list and
the validation list the next up-to-10 files (`few_shot = 0` is treated
as falsy and takes the `train_split` branch instead). -/
theorem c7_few_shot_amended {α : Type} (k : ℕ) (hk : k ≠ 0) (ts : ℚ)
    (l : List α) :
    (loadDataSplit (some k) ts l).1 = l.take k ∧
    (loadDataSplit (some k) ts l).1.length = min k l.length ∧
    (loadDataSplit (some k) ts l).2 = (l.drop k).take 10 ∧
    (loadDataSplit (some k) ts l).2.length = min 10 (l.length - k) := by
  simp [loadDataSplit, hk, List.length_take, List.length_drop]

/-- C7 amended witness: `k = 2` on a three-file list. -/
theorem c7_few_shot_amended_witness :
    (loadDataSplit (some 2) (4 / 5 : ℚ) ([0, 1, 2] : List ℕ)).1 =
      ([0, 1, 2] : List ℕ).take 2 ∧
    (loadDataSplit (some 2) (4 / 5 : ℚ) ([0, 1, 2] : List ℕ)).1.length =
      min 2 ([0, 1, 2] : List ℕ).length ∧
    (loadDataSplit (some 2) (4 / 5 : ℚ) ([0, 1, 2] : List ℕ)).2 =
      (([0, 1, 2] : List ℕ).drop 2).take 10 ∧
    (loadDataSplit (some 2) (4 / 5 : ℚ) ([0, 1, 2] : List ℕ)).2.length =
      min 10 (([0, 1, 2] : List ℕ).length - 2) :=
  c7_few_shot_amended 2 (by decide) (4 / 5) [0, 1, 2]

/-- The three parts of the split reassemble the shuffled list exactly. -/
theorem loadDataSplit_parts_eq {α : Type} (few_shot : Option ℕ) (ts : ℚ)
    (l : List α) :
    (loadDataSplit few_shot ts l).1 ++ (loadDataSplit few_shot ts l).2 ++
      fewShotRemainder few_shot l = l := by
  match few_shot with
  | none =>
    simp [loadDataSplit, splitByFrac, fewShotRemainder, List.take_append_drop]
  | some k =>
    by_cases hk : k = 0
    · simp [loadDataSplit, splitByFrac, fewShotRemainder, hk,
        List.take_append_drop]
    · simp only [loadDataSplit, fewShotRemainder, if_pos hk, if_neg, hk,
        ite_not]
      rw [List.append_assoc, List.take_append_drop, List.take_append_drop]

/-- C8: the train and validation lists produced by `load_data` are
disjoint, and together with the few-shot-excluded remainder they form a
permutation of (hence the same set as) the files matching the task's
pattern. `shuffled` is the result of `random.shuffle`, i.e. any
permutation of the matched list; paths returned by `glob` are distinct,
hence the `Nodup` hypothesis. -/
theorem c8_split_disjoint (files : List String)
    (pattern : Option (String → Bool)) (shuffled : List String)
    (few_shot : Option ℕ) (ts : ℚ)
    (hperm : shuffled.Perm (filterFiles files pattern))
    (hnd : (filterFiles files pattern).Nodup) :
    (loadDataSplit few_shot ts shuffled).1.Disjoint
      (loadDataSplit few_shot ts shuffled).2 ∧
    ((loadDataSplit few_shot ts shuffled).1 ++
      (loadDataSplit few_shot ts shuffled).2 ++
      fewShotRemainder few_shot shuffled).Perm
      (filterFiles files pattern) := by
  have hnd' : shuffled.Nodup := hperm.nodup_iff.mpr hnd
  refine ⟨?_, by rw [loadDataSplit_parts_eq]; exact hperm⟩
  match few_shot with
  | none =>
    exact List.disjoint_take_drop hnd' le_rfl
  | some k =>
    by_cases hk : k = 0
    · simp only [loadDataSplit, if_neg, hk, ite_not, if_pos]
      exact List.disjoint_take_drop hnd' le_rfl
    · simp only [loadDataSplit, if_pos hk, if_neg, ite_not]
      exact List.disjoint_of_subset_right (List.take_subset _ _)
        (List.disjoint_take_drop hnd' le_rfl)

/-- C8 witness: three matched files, identity filter, a nontrivial
shuffle, few-shot count 1. -/
theorem c8_split_disjoint_witness :
    (loadDataSplit (some 1) (4 / 5 : ℚ) ["b", "a", "c"]).1.Disjoint
      (loadDataSplit (some 1) (4 / 5 : ℚ) ["b", "a", "c"]).2 ∧
    ((loadDataSplit (some 1) (4 / 5 : ℚ) ["b", "a", "c"]).1 ++
      (loadDataSplit (some 1) (4 / 5 : ℚ) ["b", "a", "c"]).2 ++
      fewShotRemainder (some 1) ["b", "a", "c"]).Perm
      (filterFiles ["a", "b", "c"] none) :=
  c8_split_disjoint ["a", "b", "c"] none ["b", "a", "c"] (some 1) (4 / 5)
    (by decide) (by decide)

end TorchData

end FewShotBC
